import Mathlib

/-!
Verification development for the mercantil-seguros-bot repository.

The definitions below are shallow embeddings of the TypeScript functions of
the repository: JS strings are modelled as Lean `String` / `List Char`,
JS numbers as `ℚ` (all premium arithmetic in the program stays on exactly
representable decimal values), nullable values as `Option`, and the mutable
`formValues` record as an association list with JS-object update semantics.
-/

namespace MercantilBot

/-! ## Generic JS string helpers -/

/-- JS whitespace test (the subset relevant to the scraped data). -/
def isJsWs (c : Char) : Bool :=
  c = ' ' || c = '\t' || c = '\n' || c = '\r'

/-- Infix test on character lists: `needle` occurs contiguously in `hay`.
Models JS `String.prototype.includes` (every string contains `""`). -/
def listInfix (needle : List Char) : List Char → Bool
  | [] => needle.isEmpty
  | c :: rest => needle.isPrefixOf (c :: rest) || listInfix needle rest

/-- Index of the first occurrence of `needle` in `hay`
(models JS `indexOf`, with `none` for `-1`). -/
def findSubAux (needle : List Char) : List Char → Option Nat
  | [] => if needle.isEmpty then some 0 else none
  | c :: rest =>
    if needle.isPrefixOf (c :: rest) then some 0
    else (findSubAux needle rest).map (· + 1)

/-- Index of the last occurrence of `needle` in `hay`
(models JS `lastIndexOf`, with `none` for `-1`). -/
def lastSubAux (needle : List Char) : List Char → Option Nat
  | [] => if needle.isEmpty then some 0 else none
  | c :: rest =>
    match lastSubAux needle rest with
    | some k => some (k + 1)
    | none => if needle.isPrefixOf (c :: rest) then some 0 else none

/-- JS `hay.includes(sub)` on `String`. -/
def jsIncludes (hay sub : String) : Bool :=
  listInfix sub.data hay.data

/-- JS `toLowerCase` (ASCII range, which covers the scraped field names). -/
def jsToLower (s : String) : String :=
  String.mk (s.data.map Char.toLower)

/-- JS truthiness of a nullable string (`null`/`undefined`/`""` are falsy). -/
def truthyStr : Option String → Bool
  | none => false
  | some s => s ≠ ""

/-- JS `a || b` on nullable strings. -/
def jsOrOpt (a b : Option String) : Option String :=
  match a with
  | some s => if s = "" then b else some s
  | none => b

/-- JS `a || b` where the fallback is a plain string. -/
def jsOrStr (a : Option String) (b : String) : String :=
  match a with
  | some s => if s = "" then b else s
  | none => b

/-- JS `String.prototype.trim` (both ends). -/
def jsTrimL (cs : List Char) : List Char :=
  ((cs.dropWhile isJsWs).reverse.dropWhile isJsWs).reverse

/-- `trim` on `String`. -/
def jsTrim (s : String) : String :=
  String.mk (jsTrimL s.data)

/-! ## `mapPlanIdToPurchaseForm` — src/app/api/purchase-form/route.ts

The source replaces the regex `^D-` (anchored at the start, non-global, so at
most one occurrence) with `M-`: if the string begins with `D-`, that leading
`D-` becomes `M-`, otherwise the string is returned unchanged. -/

/-- Character-level semantics of the anchored single replace of `^D-` by `M-`. -/
def replaceLeadingDWithM (s : List Char) : List Char :=
  match s with
  | c₁ :: c₂ :: rest => if c₁ = 'D' ∧ c₂ = '-' then 'M' :: '-' :: rest else s
  | _ => s

/-- `mapPlanIdToPurchaseForm` from src/app/api/purchase-form/route.ts. -/
def mapPlanIdToPurchaseForm (planId : String) : String :=
  String.mk (replaceLeadingDWithM planId.data)

/-- Modelled from the spec: the reverse direction of the tier-prefix naming
convention (`D-<n>` on the quote page, `M-<n>` on the purchase page, glossary
of the spec). The source has no inverse function; this definition is the
spec-side inverse used to state round-trip stability. -/
def replaceLeadingMWithD (s : List Char) : List Char :=
  match s with
  | c₁ :: c₂ :: rest => if c₁ = 'M' ∧ c₂ = '-' then 'D' :: '-' :: rest else s
  | _ => s

/-! ## Purchase-form field model — src/src/types.ts `PurchaseFormField`

`dataPremium` is the `data-premium` attribute captured by the extractor in
src/src/index.ts and read by the premium engine in src/app/purchase/page.tsx. -/

structure PurchaseFormField where
  tag : String
  type : Option String
  name : Option String
  id : Option String
  placeholder : Option String
  label : Option String
  required : Bool
  value : Option String
  options : Option (List (String × String))
  dataPremium : Option String
deriving DecidableEq, Repr

/-- `o?.includes(sub)` for a nullable string (`undefined` is falsy). -/
def optIncludes (o : Option String) (sub : String) : Bool :=
  match o with
  | some s => jsIncludes s sub
  | none => false

/-- Digits of a decimal numeral to a natural number (JS `parseInt` on a
digit-only match). -/
def digitsToNat (ds : List Char) : Nat :=
  ds.foldl (fun n c => n * 10 + (c.toNat - '0'.toNat)) 0

/-- Scanner for the first full match of the regex `\[breakdowns\]\[(\d+)\]`
in a string: at each position, the literal `[breakdowns][` followed by one or
more digits and `]`; positions that start the literal but are not followed by
`digits ]` are skipped, as regex backtracking does. Returns the captured
index. Used by `groupFieldsByPassenger` in src/app/purchase/page.tsx. -/
def breakdownIdxAux (pat : List Char) : Nat → List Char → Option Nat
  | 0, _ => none
  | _, [] => none
  | fuel + 1, c :: rest =>
    if pat.isPrefixOf (c :: rest) then
      let after := (c :: rest).drop pat.length
      let ds := after.takeWhile Char.isDigit
      if ds ≠ [] ∧ (after.drop ds.length).head? = some ']' then some (digitsToNat ds)
      else breakdownIdxAux pat fuel rest
    else breakdownIdxAux pat fuel rest

/-- First `[breakdowns][P]` index in a nullable field name. -/
def parseBreakdownIndex (name : Option String) : Option Nat :=
  match name with
  | some s => breakdownIdxAux "[breakdowns][".data s.data.length s.data
  | none => none

/-! ## `shouldDisplayField` — src/app/purchase/page.tsx lines 677-727 -/

/-- Display filter for form fields, transcribed clause by clause from
`shouldDisplayField` in src/app/purchase/page.tsx. -/
def shouldDisplayField (f : PurchaseFormField) : Bool :=
  if f.type = some "hidden" then false
  else if optIncludes f.name "[riders][" && f.type = some "text" then false
  else if f.type = some "checkbox" && optIncludes f.name "[riders]" && truthyStr f.label then
    true
  else if truthyStr f.name &&
      (optIncludes f.name "[factor_wlc]" || optIncludes f.name "[factor_main]" ||
       optIncludes f.name "[plan][id]" || optIncludes f.name "[data_taxes]" ||
       optIncludes f.name "[calculate_premium]" || optIncludes f.name "[free_passenger]") then
    false
  else if truthyStr f.name &&
      ((optIncludes f.name "[plan]" && !optIncludes f.name "[plan][id]") ||
       optIncludes f.name "[agent]" || optIncludes f.name "agent_fullname" ||
       (f.name = some "email" &&
         (match f.label with
          | some l => jsIncludes (jsToLower l) "enviar"
          | none => false))) then
    false
  else if !truthyStr f.label && !f.required then false
  else true

/-! ## `groupFieldsByPassenger` — src/app/purchase/page.tsx lines 730-769

The source filters by `shouldDisplayField`, then routes each field by its
bracket path with an if/else-if chain: first `[breakdowns]` (to passenger
group `P+1` when the index regex matches, to `otherFields` when it does not),
then `[contact]`, then rider checkboxes (to `beneficios`), else
`otherFields`. The routing decision is factored out as `routeField`; the
imperative per-key push accumulation is presented as a per-key filter, which
yields the same lists in the same order. -/

/-- The group key a field is routed to (`none` means `otherFields`). -/
def routeField (f : PurchaseFormField) : Option String :=
  if optIncludes f.name "[breakdowns]" then
    match parseBreakdownIndex f.name with
    | some p => some ("passenger-" ++ Nat.repr (p + 1))
    | none => none
  else if optIncludes f.name "[contact]" then some "contact"
  else if f.type = some "checkbox" && optIncludes f.name "[riders]" then some "beneficios"
  else none

structure GroupedFields where
  groups : String → List PurchaseFormField
  otherFields : List PurchaseFormField

/-- `groupFieldsByPassenger` from src/app/purchase/page.tsx. -/
def groupFieldsByPassenger (fields : List PurchaseFormField) : GroupedFields :=
  let displayable := fields.filter shouldDisplayField
  { groups := fun k => displayable.filter (fun f => routeField f = some k)
    otherFields := displayable.filter (fun f => routeField f = none) }

/-- A field with a `[breakdowns][2]` path segment, as in the spec's example. -/
def exBreakdownField : PurchaseFormField :=
  { tag := "input", type := some "text",
    name := some "root[quotes][0][breakdowns][2][passenger][last_name]",
    id := none, placeholder := none, label := some "Apellido", required := true,
    value := none, options := none, dataPremium := none }

/-- A rider checkbox whose name carries a `[breakdowns][0]` segment, the shape
of every rider field scraped from the remote form (compare the denylist
literal `website_quotation[quotes][0][breakdowns][0][riders]` in
src/app/purchase/page.tsx line 474). -/
def exRiderCheckbox : PurchaseFormField :=
  { tag := "input", type := some "checkbox",
    name := some "website_quotation[quotes][0][breakdowns][0][riders][5]",
    id := some "website_quotation_quotes_0_breakdowns_0_riders_5",
    placeholder := none, label := some "Asistencia funeraria", required := false,
    value := some "105", options := none, dataPremium := some "5.50" }

/-! ## `cleanLabel` — src/app/purchase/page.tsx lines 10-22

A chain of global replaces with `trim` after each step, then word-wise
capitalization. Each regex is realized by a dedicated scanner:
bracket spans (lazy, dot does not cross a newline), a case-insensitive
literal, a literal followed by one or more digits, plain literals,
underscore to space, and whitespace collapsing. -/

/-- Prefix match of `pat` against `cs`, optionally case-insensitive
(JS regexes lowercase ASCII under the `i` flag). -/
def matchesAt (ci : Bool) : List Char → List Char → Bool
  | [], _ => true
  | _ :: _, [] => false
  | p :: ps, c :: rest =>
    (if ci then p.toLower = c.toLower else p = c) && matchesAt ci ps rest

/-- Offset of the next `]` reachable without crossing a newline (the regex
dot in the bracket-removal pattern does not match a newline). -/
def findCloseBracket : List Char → Option Nat
  | [] => none
  | c :: rest =>
    if c = ']' then some 0
    else if c = '\n' then none
    else (findCloseBracket rest).map (· + 1)

/-- Global removal of lazy bracket spans: on `[`, drop through the nearest
`]` on the same line; an unclosed `[` is kept verbatim. -/
def removeBracketsAux : Nat → List Char → List Char
  | 0, cs => cs
  | _, [] => []
  | fuel + 1, c :: rest =>
    if c = '[' then
      match findCloseBracket rest with
      | some k => removeBracketsAux fuel (rest.drop (k + 1))
      | none => c :: removeBracketsAux fuel rest
    else c :: removeBracketsAux fuel rest

def removeBracketSpans (cs : List Char) : List Char :=
  removeBracketsAux cs.length cs

/-- Global removal of a literal substring, optionally case-insensitive
(leftmost, non-overlapping, continuing after each match, as JS `replace`
with the `g` flag and an empty replacement). -/
def removeSubAux (ci : Bool) (pat : List Char) : Nat → List Char → List Char
  | 0, cs => cs
  | _, [] => []
  | fuel + 1, c :: rest =>
    if pat ≠ [] ∧ matchesAt ci pat (c :: rest) then
      removeSubAux ci pat fuel ((c :: rest).drop pat.length)
    else c :: removeSubAux ci pat fuel rest

def removeAllSub (ci : Bool) (pat : String) (cs : List Char) : List Char :=
  removeSubAux ci pat.data cs.length cs

/-- Global removal of `word` followed by one or more digits (the patterns
with a trailing digit class in `cleanLabel`). -/
def removeWordDigitsAux (word : List Char) : Nat → List Char → List Char
  | 0, cs => cs
  | _, [] => []
  | fuel + 1, c :: rest =>
    if matchesAt false word (c :: rest) then
      let after := (c :: rest).drop word.length
      let ds := after.takeWhile Char.isDigit
      if ds ≠ [] then removeWordDigitsAux word fuel (after.drop ds.length)
      else c :: removeWordDigitsAux word fuel rest
    else c :: removeWordDigitsAux word fuel rest

def removeWordDigits (word : String) (cs : List Char) : List Char :=
  removeWordDigitsAux word.data cs.length cs

/-- Collapse every maximal run of whitespace to a single space. -/
def collapseWsGo : Bool → List Char → List Char
  | _, [] => []
  | afterWs, c :: rest =>
    if isJsWs c then
      if afterWs then collapseWsGo true rest
      else ' ' :: collapseWsGo true rest
    else c :: collapseWsGo false rest

def collapseWs (cs : List Char) : List Char :=
  collapseWsGo false cs

/-- `word.charAt(0).toUpperCase() + word.slice(1)` (ASCII uppercase). -/
def capitalizeWord : List Char → List Char
  | [] => []
  | c :: rest => c.toUpper :: rest

/-- JS `split` on a single separator character (adjacent separators produce
empty segments, like JS). -/
def pushSeg (c : Char) : List (List Char) → List (List Char)
  | [] => [[c]]
  | w :: ws => (c :: w) :: ws

def splitOnChar (sep : Char) (cs : List Char) : List (List Char) :=
  cs.foldr (fun c acc => if c = sep then [] :: acc else pushSeg c acc) [[]]

/-- `split` on any of `[`, `]`, `_` (the character class in `getFieldLabel`). -/
def splitDelims (cs : List Char) : List (List Char) :=
  cs.foldr (fun c acc => if c = '[' || c = ']' || c = '_' then [] :: acc else pushSeg c acc) [[]]

def joinWithSpace (ws : List (List Char)) : List Char :=
  (ws.intersperse [' ']).flatten

/-- `cleanLabel` from src/app/purchase/page.tsx. -/
def cleanLabel (s : String) : String :=
  let t1 := jsTrimL (removeBracketSpans s.data)
  let t2 := jsTrimL (removeAllSub true "website_quotation" t1)
  let t3 := jsTrimL (removeWordDigits "quotes" t2)
  let t4 := jsTrimL (removeWordDigits "breakdowns" t3)
  let t5 := jsTrimL (removeWordDigits "riders" t4)
  let t6 := jsTrimL (removeAllSub false "passenger" t5)
  let t7 := jsTrimL (removeAllSub false "contact" t6)
  let t8 := jsTrimL (t7.map (fun c => if c = '_' then ' ' else c))
  let t9 := jsTrimL (collapseWs t8)
  String.mk (joinWithSpace ((splitOnChar ' ' t9).map capitalizeWord))

/-! ## `fieldNameMapping` and `getFieldLabel` — src/app/purchase/page.tsx -/

/-- `fieldNameMapping` from src/app/purchase/page.tsx, in insertion order
(JS object literals iterate string keys in insertion order). -/
def fieldNameMapping : List (String × String) :=
  [("first_name", "Nombre"), ("last_name", "Apellido"),
   ("nombre", "Nombre"), ("apellido", "Apellido"),
   ("gender", "Género"), ("genero", "Género"),
   ("country", "País"), ("pais", "País"),
   ("email", "Email"),
   ("phone_country", "Código País"), ("phone_number", "Teléfono"),
   ("telefono", "Teléfono"), ("codigo", "Código País"),
   ("medical_condition", "Condiciones Médicas"), ("condiciones", "Condiciones Médicas"),
   ("medicas", "Condiciones Médicas"),
   ("birthday_day", "Día de Nacimiento"), ("birthday_month", "Mes de Nacimiento"),
   ("birthday_year", "Año de Nacimiento"),
   ("fecha", "Fecha de Nacimiento"), ("nacimiento", "Fecha de Nacimiento"),
   ("age", "Edad"), ("edad", "Edad"),
   ("identification_type", "Tipo de Identificación"),
   ("identification_number", "Número de Identificación"),
   ("identificacion", "Tipo de Identificación"), ("numero", "Número"),
   ("premium", "Prima Total a Pagar"), ("prima", "Prima Total a Pagar"),
   ("agent_fullname", "Agente/Agencia"), ("agente", "Agente/Agencia"),
   ("contacto", "Contacto de Emergencia"), ("emergencia", "Contacto de Emergencia")]

/-- `getFieldLabel` from src/app/purchase/page.tsx: existing clean label
(validated and cleaned), else raw placeholder, else dictionary lookup on the
lowercased name (whole-name equality or containment in insertion order, then
token-wise exact lookup after splitting on brackets and underscores), else
the cleaned raw name, else the id, else `"Campo"`. -/
def getFieldLabel (f : PurchaseFormField) : String :=
  let fromLabel : Option String :=
    match f.label with
    | some l =>
      if l ≠ "" ∧ jsTrim l ≠ "" ∧ ¬jsIncludes l "[" ∧ ¬jsIncludes l "website_quotation" then
        let cleaned := cleanLabel l
        if cleaned ≠ "" ∧ cleaned.length > 0 ∧ cleaned.length < 50 then some cleaned else none
      else none
    | none => none
  match fromLabel with
  | some s => s
  | none =>
    if truthyStr f.placeholder ∧ jsTrim (f.placeholder.getD "") ≠ "" then
      f.placeholder.getD ""
    else
      match f.name with
      | some nm =>
        if nm = "" then jsOrStr f.id "Campo"
        else
          let nameLower := jsToLower nm
          match fieldNameMapping.find? (fun kv => nameLower = kv.1 || jsIncludes nameLower kv.1) with
          | some kv => kv.2
          | none =>
            let parts := (splitDelims nameLower.data).filter (fun w => w.length > 0)
            match parts.findSome? (fun w =>
                (fieldNameMapping.find? (fun kv => kv.1 = String.mk w)).map Prod.snd) with
            | some v => v
            | none => cleanLabel nm
      | none => jsOrStr f.id "Campo"

/-- A field whose placeholder contains brackets and that has no DOM label:
the placeholder branch of `getFieldLabel` returns it verbatim. -/
def exPlaceholderField : PurchaseFormField :=
  { tag := "input", type := some "text",
    name := some "website_quotation[quotes][0][monto]",
    id := none, placeholder := some "Monto [USD]", label := none,
    required := false, value := none, options := none, dataPremium := none }

/-- The spec's example field `a[b][first_name]` with no DOM label and no
placeholder. -/
def exFirstNameField : PurchaseFormField :=
  { tag := "input", type := some "text", name := some "a[b][first_name]",
    id := some "a_b_first_name", placeholder := none, label := none,
    required := true, value := none, options := none, dataPremium := none }

/-! ## Form-values state — `formValues : Record<string, string>`

JS object semantics on string keys: lookup, spread-update (existing key
updated in place, new key appended), `delete`. -/

def lookupVal (m : List (String × String)) (k : String) : Option String :=
  (m.find? (fun p => p.1 = k)).map Prod.snd

def insertVal (m : List (String × String)) (k v : String) : List (String × String) :=
  if (m.find? (fun p => p.1 = k)).isSome then
    m.map (fun p => if p.1 = k then (k, v) else p)
  else m ++ [(k, v)]

def eraseVal (m : List (String × String)) (k : String) : List (String × String) :=
  m.filter (fun p => p.1 ≠ k)

/-! ## Number parsing and formatting

JS numbers are modelled as `ℚ`; every premium value handled by the program
is an exact decimal, so rational arithmetic coincides with the JS float
arithmetic on them. -/

/-- The lexical part of JS `parseFloat` on the decimal forms occurring in the
data: optional leading whitespace and sign, digits, optional fraction;
trailing junk is ignored; `none` models `NaN`. (Exponent forms do not occur
in the data and are not modelled.) Returns the sign and the integer and
fraction digit runs. -/
def parseDecParts (s : String) : Option (Bool × List Char × List Char) :=
  let cs := s.data.dropWhile isJsWs
  let neg := match cs with | '-' :: _ => true | _ => false
  let cs1 := match cs with | '-' :: r => r | '+' :: r => r | _ => cs
  let intDs := cs1.takeWhile Char.isDigit
  let rest := cs1.drop intDs.length
  let fracDs := match rest with | '.' :: r => r.takeWhile Char.isDigit | _ => []
  if intDs = [] ∧ fracDs = [] then none else some (neg, intDs, fracDs)

/-- The numeric value of a parsed sign/integer-digits/fraction-digits triple. -/
def ratOfDigits (neg : Bool) (intDs fracDs : List Char) : ℚ :=
  (if neg then -1 else 1) *
    ((digitsToNat intDs : ℚ) + (digitsToNat fracDs : ℚ) / (10 : ℚ) ^ fracDs.length)

/-- JS `parseFloat` as a rational (`none` models `NaN`). -/
def parseDecimal (s : String) : Option ℚ :=
  (parseDecParts s).map (fun p => ratOfDigits p.1 p.2.1 p.2.2)

/-- Two-digit zero-padded numeral. -/
def pad2 (n : Nat) : String :=
  if n < 10 then "0" ++ Nat.repr n else Nat.repr n

/-- Cent count rendered as `<units>.<two digits>`. -/
def fmtCents (c : Nat) : String :=
  Nat.repr (c / 100) ++ "." ++ pad2 (c % 100)

/-- JS `toFixed(2)`: round to the nearest cent (ties away from zero) and
render with exactly two digits after the point. -/
def toFixed2 (q : ℚ) : String :=
  if q < 0 then "-" ++ fmtCents (Int.toNat ⌊-q * 100 + 1 / 2⌋)
  else fmtCents (Int.toNat ⌊q * 100 + 1 / 2⌋)

/-! ## Premium engine — src/app/purchase/page.tsx lines 321-387 -/

/-- The state-tracking key of a checkbox: `field.id || field.name || ''`. -/
def riderStateKey (f : PurchaseFormField) : String :=
  jsOrStr (jsOrOpt f.id f.name) ""

/-- The rider-checkbox guard of `calculateTotalPremium`:
`field.type === 'checkbox' && field.name?.includes('[riders]') && field.dataPremium`. -/
def isRiderPremiumField (f : PurchaseFormField) : Bool :=
  f.type = some "checkbox" && optIncludes f.name "[riders]" && truthyStr f.dataPremium

/-- `currentValue === field.value && currentValue !== undefined && currentValue !== ''`
where `currentValue = currentFormValues[stateKey]`. -/
def riderIsChecked (f : PurchaseFormField) (vals : List (String × String)) : Bool :=
  match lookupVal vals (riderStateKey f) with
  | some v => f.value = some v && v ≠ ""
  | none => false

/-- The body of the `forEach` in `calculateTotalPremium`: add the parsed
`data-premium` to the running total when the field is a selected rider
checkbox and the parse yields a positive number. -/
def riderStep (vals : List (String × String)) (total : ℚ) (f : PurchaseFormField) : ℚ :=
  if isRiderPremiumField f then
    if riderIsChecked f vals then
      match parseDecimal (f.dataPremium.getD "") with
      | some r => if 0 < r then total + r else total
      | none => total
    else total
  else total

/-- `calculateTotalPremium` from src/app/purchase/page.tsx: fold over the
form's fields, adding each selected rider checkbox's parsed `data-premium`
when it parses to a positive number. -/
def calculateTotalPremium (basePremium : ℚ) (fields : List PurchaseFormField)
    (vals : List (String × String)) : ℚ :=
  fields.foldl (riderStep vals) basePremium

/-- The premium contribution of a single field (0 unless it is a selected
rider checkbox with a positive parsed premium). -/
def riderDelta (f : PurchaseFormField) (vals : List (String × String)) : ℚ :=
  if isRiderPremiumField f && riderIsChecked f vals then
    match parseDecimal (f.dataPremium.getD "") with
    | some r => if 0 < r then r else 0
    | none => 0
  else 0

/-- `handleInputChange` from src/app/purchase/page.tsx: store the value under
`actualFieldName || fieldName` (deleting the key when the value is the empty
string), and when the changed field is a rider checkbox, recompute the total
premium and write `"US$ " + total.toFixed(2)` into the premium field's
tracked value. -/
def handleInputChange (fields : List PurchaseFormField) (basePremium : ℚ)
    (vals : List (String × String)) (fieldName value : String)
    (actualFieldName : Option String) : List (String × String) :=
  let key := jsOrStr actualFieldName fieldName
  let newFormValues := if value = "" then eraseVal vals key else insertVal vals key value
  match fields.find? (fun f => jsOrOpt f.name f.id = some key) with
  | some f =>
    if f.type = some "checkbox" && optIncludes f.name "[riders]" then
      let totalPremium := calculateTotalPremium basePremium fields newFormValues
      match fields.find? (fun f2 =>
          (optIncludes (f2.name.map jsToLower) "premium" ||
           optIncludes (f2.name.map jsToLower) "prima") &&
          !optIncludes f2.name "[calculate_premium]") with
      | some pf =>
        match pf.name with
        | some nm =>
          if nm ≠ "" then insertVal newFormValues nm ("US$ " ++ toFixed2 totalPremium)
          else newFormValues
        | none => newFormValues
      | none => newFormValues
    else newFormValues
  | none => newFormValues

/-- `handleSubmit`'s payload construction from src/app/purchase/page.tsx:
for every field with a truthy name, append
`formValues[name] || field.value || ''`, overridden to `''` for a checkbox
whose name has no truthy tracked value. -/
def buildFormData (fields : List PurchaseFormField) (vals : List (String × String)) :
    List (String × String) :=
  fields.foldl (fun acc f =>
    match f.name with
    | some nm =>
      if nm = "" then acc
      else
        let v0 := jsOrStr (lookupVal vals nm) (jsOrStr f.value "")
        let v := if f.type = some "checkbox" && !truthyStr (lookupVal vals nm) then "" else v0
        acc ++ [(nm, v)]
    | none => acc) []

/-! ## Concrete premium-engine scenario (spec §8): base 100.00, riders 5.50
and 10.00. The rider checkboxes here have no element id, so the state key of
`calculateTotalPremium` (`field.id || field.name`) and the storage key of
`handleInputChange` (`actualFieldName || fieldName` = the field name)
coincide. -/

def premiumField : PurchaseFormField :=
  { tag := "input", type := some "text",
    name := some "website_quotation[quotes][0][premium]",
    id := none, placeholder := none, label := some "Prima", required := false,
    value := some "US$ 100.00", options := none, dataPremium := none }

def riderA : PurchaseFormField :=
  { tag := "input", type := some "checkbox",
    name := some "website_quotation[quotes][0][breakdowns][0][riders][0]",
    id := none, placeholder := none, label := some "Beneficio A", required := false,
    value := some "101", options := none, dataPremium := some "5.50" }

def riderB : PurchaseFormField :=
  { tag := "input", type := some "checkbox",
    name := some "website_quotation[quotes][0][breakdowns][0][riders][1]",
    id := none, placeholder := none, label := some "Beneficio B", required := false,
    value := some "102", options := none, dataPremium := some "10.00" }

def demoPurchaseFields : List PurchaseFormField := [premiumField, riderA, riderB]

def valsBothSelected : List (String × String) :=
  [("website_quotation[quotes][0][breakdowns][0][riders][0]", "101"),
   ("website_quotation[quotes][0][breakdowns][0][riders][1]", "102")]

def valsOneSelected : List (String × String) :=
  [("website_quotation[quotes][0][breakdowns][0][riders][0]", "101")]

/-- A rider checkbox used for the submission-payload scenario. -/
def exRiderForSubmit : PurchaseFormField :=
  { tag := "input", type := some "checkbox",
    name := some "website_quotation[quotes][0][breakdowns][0][riders][2]",
    id := some "website_quotation_quotes_0_breakdowns_0_riders_2",
    placeholder := none, label := some "Beneficio C", required := false,
    value := some "103", options := none, dataPremium := some "3.00" }

/-- The tracked form values after toggling `exRiderForSubmit` off, starting
from the state where it was checked. -/
def valsAfterRiderOff : List (String × String) :=
  handleInputChange [exRiderForSubmit] 0
    [("website_quotation[quotes][0][breakdowns][0][riders][2]", "103")]
    "website_quotation_quotes_0_breakdowns_0_riders_2" ""
    (some "website_quotation[quotes][0][breakdowns][0][riders][2]")

/-! ## Catalog and API-client resolution — src/unnamed/part_002
(`MercantilSegurosAPIClient.getTripTypeValue`, `getOriginId`,
`getDestinationId`) over the catalog types of src/src/types.ts. -/

structure CatalogOption where
  value : String
  text : String
  disabled : Option Bool
  dataFilter : Option String
deriving DecidableEq, Repr

structure CatalogData where
  tripTypes : List CatalogOption
  origins : List CatalogOption
  destinations : List (String × List CatalogOption)
  agents : List CatalogOption
deriving DecidableEq, Repr

/-- JS object-key lookup on the destinations map. -/
def lookupDest (d : List (String × List CatalogOption)) (k : String) :
    Option (List CatalogOption) :=
  (d.find? (fun p => p.1 = k)).map Prod.snd

/-- `getTripTypeValue` from src/unnamed/part_002: fuzzy find (text or value
equality, or containment of either in the query), with silent fallback to
the hardcoded `'Viajes Por Día'`. -/
def getTripTypeValue (catalog : CatalogData) (tripType : String) : String :=
  jsOrStr
    ((catalog.tripTypes.find? (fun t =>
      t.text = tripType || t.value = tripType ||
      jsIncludes tripType t.text || jsIncludes tripType t.value)).map
        (fun t => t.value))
    "Viajes Por Día"

/-- `getOriginId` from src/unnamed/part_002: exact or substring match in
either direction, with silent fallback to the hardcoded `'160'` (Panamá). -/
def getOriginId (catalog : CatalogData) (originText : String) : String :=
  jsOrStr
    ((catalog.origins.find? (fun o =>
      o.text = originText ||
      jsIncludes o.text originText || jsIncludes originText o.text)).map
        (fun o => o.value))
    "160"

/-- `getDestinationId` from src/unnamed/part_002: destinations for the
resolved trip-type value (falling back to the raw trip type key, then to the
empty list), exact or substring match in either direction, with silent
fallback to the hardcoded `'3'` (Europa). -/
def getDestinationId (catalog : CatalogData) (destinationText tripType : String) : String :=
  let tripTypeValue := getTripTypeValue catalog tripType
  let dests :=
    match lookupDest catalog.destinations tripTypeValue with
    | some l => l
    | none =>
      match lookupDest catalog.destinations tripType with
      | some l => l
      | none => []
  jsOrStr
    ((dests.find? (fun d =>
      d.text = destinationText ||
      jsIncludes d.text destinationText || jsIncludes destinationText d.text)).map
        (fun d => d.value))
    "3"

/-- A small catalog with no entry matching the query `"Atlantis"`, and whose
destination list does not even contain the fallback id `"3"`. -/
def demoCatalog : CatalogData :=
  { tripTypes := [{ value := "Viajes Por Día", text := "Viajes Por Día",
                    disabled := none, dataFilter := none }],
    origins := [{ value := "10", text := "Argentina", disabled := none, dataFilter := none }],
    destinations := [("Viajes Por Día",
      [{ value := "7", text := "Asia", disabled := none, dataFilter := none }])],
    agents := [] }

/-! ## Quote-generation interaction order — src/src/index.ts `generateQuote`
and the quote POST route (src/app/results/page.tsx appendix)

The Playwright interaction sequence is modelled as a trace of remote
actions. The environment abstracts what the remote page supplies: the origin
dropdown's options, the enabled destination options after the trip-type
select, the number of age inputs that appear, and the echoed date value.
Pure `waitForTimeout` delays carry no information and are not recorded.
The post-submission waiting/extraction (lines 215-300) is not needed for the
interaction-order property and is represented by the `submitted` outcome. -/

def QUOTE_URL : String := "https://www1.mercantilseguros.com/as/viajesint/mrp022052"

def selTripType : String := "#websitebundle_quotation_search_product"

def selOrigin : String := "#websitebundle_quotation_search_origin"

def selDestination : String := "#websitebundle_quotation_search_destination"

def selAgent : String := "#websitebundle_quotation_search_agent"

def selDateRange : String := "#sliderDateRange"

def selPassengerCount : String := "#selector-passenger-count"

def selAgeInput (i : Nat) : String := "#passengers-age\\[" ++ Nat.repr i ++ "\\]"

inductive RemoteAction where
  | navigate (url : String)
  | waitForSelector (sel : String)
  | selectOption (sel value : String)
  | readOptions (sel : String)
  | click (target : String)
  | typeText (sel text : String)
  | pressKey (key : String)
  | readInputValue (sel : String)
  | fill (sel text : String)
  | screenshot
deriving DecidableEq, Repr

/-- What the remote page supplies during the scripted interaction. -/
structure PageEnv where
  originOptions : List (Option String × Option String)
  availableDestinations : List CatalogOption
  ageInputsVisible : Nat
  dateEcho : String
deriving DecidableEq, Repr

/-- `QuoteConfig` from src/src/types.ts (dates stay as the DD/MM/YYYY strings
the program passes around). -/
structure QuoteConfig where
  tripType : String
  origin : String
  destination : String
  departureDate : String
  returnDate : String
  passengers : Nat
  ages : List Nat
  agent : Option String
deriving DecidableEq, Repr

inductive QuoteOutcome where
  | submitted
  | error (message : String)
deriving DecidableEq, Repr

/-- The age-fill loop of `generateQuote` (lines 174-181): each age input is
awaited then filled; an index beyond the inputs the page shows is a wait
timeout (the loop throws there). -/
def fillAgesAux (visible : Nat) : Nat → List Nat → List RemoteAction × Bool
  | _, [] => ([], true)
  | i, a :: rest =>
    if i < visible then
      let r := fillAgesAux visible (i + 1) rest
      (RemoteAction.waitForSelector (selAgeInput i) ::
        RemoteAction.fill (selAgeInput i) (Nat.repr a) :: r.1, r.2)
    else ([RemoteAction.waitForSelector (selAgeInput i)], false)

/-- `generateQuote` from src/src/index.ts as a trace of remote actions plus
an outcome. The first statement of the method body (after the initialized
check) is the navigation to `QUOTE_URL`; no input validation of any kind
precedes it. -/
def generateQuoteTrace (config : QuoteConfig) (env : PageEnv) :
    List RemoteAction × QuoteOutcome :=
  let pre : List RemoteAction :=
    [RemoteAction.navigate QUOTE_URL,
     RemoteAction.waitForSelector selTripType,
     RemoteAction.selectOption selTripType config.tripType,
     RemoteAction.readOptions selDestination,
     RemoteAction.readOptions selOrigin]
  let originValue : Option String :=
    match env.originOptions.find? (fun p =>
      match p.1 with
      | some t => jsIncludes (jsTrim t) config.origin
      | none => false) with
    | some p => p.2
    | none => none
  if truthyStr originValue then
    let t1 := pre ++ [RemoteAction.selectOption selOrigin (originValue.getD "")]
    match env.availableDestinations.find? (fun d =>
        jsIncludes (jsToLower d.text) (jsToLower config.destination) ||
        jsIncludes (jsToLower config.destination) (jsToLower d.text)) with
    | some d =>
      let t2 := t1 ++ [RemoteAction.selectOption selDestination d.value]
      let t3 := t2 ++ (match config.agent with
        | some a => if a ≠ "" then [RemoteAction.selectOption selAgent a] else []
        | none => [])
      let t4 := t3 ++
        [RemoteAction.click selDateRange, RemoteAction.click selDateRange,
         RemoteAction.pressKey "Backspace",
         RemoteAction.typeText selDateRange
           (config.departureDate ++ " - " ++ config.returnDate),
         RemoteAction.pressKey "Tab", RemoteAction.pressKey "Escape",
         RemoteAction.readInputValue selDateRange,
         RemoteAction.selectOption selPassengerCount (Nat.repr config.passengers)]
      let ares := fillAgesAux env.ageInputsVisible 0 config.ages
      if ares.2 then
        (t4 ++ ares.1 ++
          [RemoteAction.screenshot, RemoteAction.pressKey "Escape",
           RemoteAction.click "COTIZAR SEGURO"],
         QuoteOutcome.submitted)
      else (t4 ++ ares.1, QuoteOutcome.error "Timeout waiting for age input")
    | none =>
      (t1, QuoteOutcome.error
        ("Destination \"" ++ config.destination ++ "\" not available for trip type \"" ++
          config.tripType ++ "\""))
  else
    (pre, QuoteOutcome.error ("Origin \"" ++ config.origin ++ "\" not found in dropdown"))

/-- A quote config whose `ages` length (1) does not match its passenger
count (2) — the malformed shape named by the spec's MalformedInputError. -/
def malformedConfig : QuoteConfig :=
  { tripType := "Viajes Por Día", origin := "Panamá", destination := "Europa",
    departureDate := "15/01/2026", returnDate := "22/01/2026",
    passengers := 2, ages := [30], agent := some "2851" }

/-- A benign environment for the malformed-input scenario. -/
def demoPageEnv : PageEnv :=
  { originOptions := [(some "Panamá", some "160")],
    availableDestinations :=
      [{ value := "3", text := "Europa", disabled := none, dataFilter := none }],
    ageInputsVisible := 2, dateEcho := "" }

/-! ## `parseQuotePlans` — src/unnamed/part_002 lines 253-394

The parser works on the raw HTML string with regexes; each regex is realized
here by a dedicated fuel-based scanner with the same leftmost-match,
continue-after-match semantics (the fuel is the input length, which every
step consumes at least one character of). -/

/-- `QuotePlan` from src/src/types.ts. -/
structure QuotePlan where
  name : String
  price : String
  planId : String
deriving DecidableEq, Repr

/-- `a || b` on character lists (the empty string is falsy). -/
def jsOrL (a b : List Char) : List Char :=
  if a = [] then b else a

/-- Ordered containment: the given literals occur left to right, disjointly
(the gaps a regex fills with an unanchored any-run). -/
def orderedInfix : List (List Char) → List Char → Bool
  | [], _ => true
  | s :: rest, cs =>
    match findSubAux s cs with
    | some i => orderedInfix rest (cs.drop (i + s.length))
    | none => false

/-- Case-insensitive first occurrence index. -/
def findSubCI (needle : List Char) : List Char → Option Nat
  | [] => if needle.isEmpty then some 0 else none
  | c :: rest =>
    if matchesAt true needle (c :: rest) then some 0
    else (findSubCI needle rest).map (· + 1)

/-- Inside a tag chunk: some `class="…"` attribute whose quoted value
contains the given literals in order (the `class` patterns of the parser,
with regex backtracking over candidate positions). -/
def classValueHas (subs : List (List Char)) : Nat → List Char → Bool
  | 0, _ => false
  | _, [] => false
  | fuel + 1, c :: rest =>
    if ("class=\"".data).isPrefixOf (c :: rest) then
      let v := ((c :: rest).drop 7).takeWhile (fun ch => ch ≠ '"')
      if v.length < ((c :: rest).drop 7).length && orderedInfix subs v then true
      else classValueHas subs fuel rest
    else classValueHas subs fuel rest

/-- An element match: the lazily captured content and the whole match. -/
structure ElemMatch where
  content : List Char
  whole : List Char
deriving DecidableEq, Repr

/-- First match of `opener[^>]*(class requirement)[^>]*>(lazy content)closer`
(the `h3` and `p` element patterns): at each position, the opener literal,
a `>`-free tag chunk satisfying the optional class requirement, then the
content up to the first closer; failure advances the scan one character, as
the regex engine does. -/
def findElemAux (opener closer : List Char) (classSubs : Option (List (List Char))) :
    Nat → List Char → Option ElemMatch
  | 0, _ => none
  | _, [] => none
  | fuel + 1, c :: rest =>
    if opener.isPrefixOf (c :: rest) then
      let tag := (c :: rest).takeWhile (fun ch => ch ≠ '>')
      let ok := tag.length < (c :: rest).length &&
        (match classSubs with
         | some subs => classValueHas subs tag.length tag
         | none => true)
      if ok then
        let after := (c :: rest).drop (tag.length + 1)
        match findSubAux closer after with
        | some j =>
          some { content := after.take j,
                 whole := (c :: rest).take (tag.length + 1 + j + closer.length) }
        | none => findElemAux opener closer classSubs fuel rest
      else findElemAux opener closer classSubs fuel rest
    else findElemAux opener closer classSubs fuel rest

/-- First match of the bare currency regex: `USD`, one or more whitespace,
one or more digits or commas, a point, exactly two digits. -/
def findUSDAux : Nat → List Char → Option (List Char)
  | 0, _ => none
  | _, [] => none
  | fuel + 1, c :: rest =>
    if ("USD".data).isPrefixOf (c :: rest) then
      let after := (c :: rest).drop 3
      let ws := after.takeWhile isJsWs
      let after2 := after.drop ws.length
      let digs := after2.takeWhile (fun ch => ch.isDigit || ch = ',')
      if ws ≠ [] && digs ≠ [] then
        match after2.drop digs.length with
        | '.' :: d1 :: d2 :: _ =>
          if d1.isDigit && d2.isDigit then
            some (("USD".data) ++ ws ++ digs ++ ['.', d1, d2])
          else findUSDAux fuel rest
        | _ => findUSDAux fuel rest
      else findUSDAux fuel rest
    else findUSDAux fuel rest

/-- Global tag stripping (one or more non-`>` between angle brackets). -/
def stripTagsAux : Nat → List Char → List Char
  | 0, cs => cs
  | _, [] => []
  | fuel + 1, c :: rest =>
    if c = '<' then
      let inner := rest.takeWhile (fun ch => ch ≠ '>')
      if inner ≠ [] && inner.length < rest.length then
        stripTagsAux fuel (rest.drop (inner.length + 1))
      else c :: stripTagsAux fuel rest
    else c :: stripTagsAux fuel rest

/-- Global case-insensitive replacement of `<br>`-style tags (optional
whitespace and self-closing slash) by a newline. -/
def replaceBrAux : Nat → List Char → List Char
  | 0, cs => cs
  | _, [] => []
  | fuel + 1, c :: rest =>
    if matchesAt true ("<br".data) (c :: rest) then
      let after := (c :: rest).drop 3
      let ws := after.takeWhile isJsWs
      match after.drop ws.length with
      | '/' :: '>' :: _ => '\n' :: replaceBrAux fuel ((c :: rest).drop (3 + ws.length + 2))
      | '>' :: _ => '\n' :: replaceBrAux fuel ((c :: rest).drop (3 + ws.length + 1))
      | _ => c :: replaceBrAux fuel rest
    else c :: replaceBrAux fuel rest

/-- Global case-insensitive rewrite of `<small …>content</small>` to a
newline followed by the (lazily captured) content. -/
def replaceSmallAux : Nat → List Char → List Char
  | 0, cs => cs
  | _, [] => []
  | fuel + 1, c :: rest =>
    if matchesAt true ("<small".data) (c :: rest) then
      let tag := (c :: rest).takeWhile (fun ch => ch ≠ '>')
      if tag.length < (c :: rest).length then
        let after := (c :: rest).drop (tag.length + 1)
        match findSubCI ("</small>".data) after with
        | some j => '\n' :: (after.take j ++ replaceSmallAux fuel (after.drop (j + 8)))
        | none => c :: replaceSmallAux fuel rest
      else c :: replaceSmallAux fuel rest
    else c :: replaceSmallAux fuel rest

/-- Strategy-1 name normalization: `<br>` to newline, `<small>` unwrapped
with a newline, tags stripped, whitespace collapsed, trimmed. -/
def cleanPlanName1 (raw : List Char) : List Char :=
  let s1 := replaceBrAux raw.length raw
  let s2 := replaceSmallAux s1.length s1
  let s3 := stripTagsAux s2.length s2
  jsTrimL (collapseWs s3)

/-- Strategy-2 name normalization (the source omits the whitespace collapse
there). -/
def cleanPlanName2 (raw : List Char) : List Char :=
  let s1 := replaceBrAux raw.length raw
  let s2 := replaceSmallAux s1.length s1
  jsTrimL (stripTagsAux s2.length s2)

/-- Within a form tag chunk: `id="D-<digits>"` followed by
`name="select-plan"`, with backtracking over candidate `id=` positions. -/
def findDPlanInTag : Nat → List Char → Option String
  | 0, _ => none
  | _, [] => none
  | fuel + 1, c :: rest =>
    if ("id=\"D-".data).isPrefixOf (c :: rest) then
      let after := (c :: rest).drop 6
      let ds := after.takeWhile Char.isDigit
      if ds ≠ [] && (after.drop ds.length).head? = some '"' &&
          listInfix ("name=\"select-plan\"".data) (after.drop (ds.length + 1)) then
        some (String.mk ('D' :: '-' :: ds))
      else findDPlanInTag fuel rest
    else findDPlanInTag fuel rest

/-- Strategy-1 form scan: every `<form … id="D-<tier>" … name="select-plan" …>`
tag, in order, continuing after each matched tag. -/
def scanFormIdsAux : Nat → List Char → List String
  | 0, _ => []
  | _, [] => []
  | fuel + 1, c :: rest =>
    if ("<form".data).isPrefixOf (c :: rest) then
      let tag := (c :: rest).takeWhile (fun ch => ch ≠ '>')
      if tag.length < (c :: rest).length then
        match findDPlanInTag tag.length tag with
        | some fid => fid :: scanFormIdsAux fuel ((c :: rest).drop (tag.length + 1))
        | none => scanFormIdsAux fuel rest
      else scanFormIdsAux fuel rest
    else scanFormIdsAux fuel rest

/-- The four price patterns of strategy 1, in order: three `p`-element
patterns with successively weaker class requirements (value is
`priceMatch[1] || priceMatch[0]`), then the bare currency regex (no capture
group, so the whole match). -/
def priceFromPlanHtml (planHtml : List Char) : Option (List Char) :=
  match findElemAux ("<p".data) ("</p>".data)
      (some ["text-color-light".data, "opacity-7".data, "mb-4".data])
      planHtml.length planHtml with
  | some m => some (jsOrL m.content m.whole)
  | none =>
    match findElemAux ("<p".data) ("</p>".data)
        (some ["opacity-7".data, "mb-4".data]) planHtml.length planHtml with
    | some m => some (jsOrL m.content m.whole)
    | none =>
      match findElemAux ("<p".data) ("</p>".data)
          (some ["opacity-7".data]) planHtml.length planHtml with
      | some m => some (jsOrL m.content m.whole)
      | none => findUSDAux planHtml.length planHtml

/-- `if (price && !price.toUpperCase().includes('USD')) price = 'USD ' + price`. -/
def ensureUSD (price : List Char) : List Char :=
  if price ≠ [] && !listInfix ("USD".data) (price.map Char.toUpper) then
    ("USD ".data) ++ price
  else price

/-- Strategy-1 card extraction for one form id: locate the first occurrence
of `id="<fid>"`, slice a bounded window (5000 characters back to the last
`<div`, 5000 forward to the first `</label>`), then extract the name from an
`h3` (bold-class first, any `h3` as fallback) and a price from the price
patterns, and normalize both. -/
def extractPlanForId (html : List Char) (fid : String) : Option QuotePlan :=
  match findSubAux (("id=\"" ++ fid ++ "\"").data) html with
  | none => none
  | some formStart =>
    let a := formStart - 5000
    let beforeForm := (html.drop a).take (formStart - a)
    match lastSubAux ("<div".data) beforeForm with
    | none => none
    | some ibs =>
      let afterForm := (html.drop formStart).take 5000
      match findSubAux ("</label>".data) afterForm with
      | none => none
      | some ibe =>
        let planHtml := (html.drop (a + ibs)).take (formStart + ibe + 8 - (a + ibs))
        let nameM :=
          match findElemAux ("<h3".data) ("</h3>".data)
              (some ["font-weight-bold".data]) planHtml.length planHtml with
          | some m => some m.content
          | none =>
            match findElemAux ("<h3".data) ("</h3>".data) none
                planHtml.length planHtml with
            | some m => some m.content
            | none => none
        match nameM with
        | none => none
        | some rawName =>
          match priceFromPlanHtml planHtml with
          | none => none
          | some rawPrice =>
            let name := cleanPlanName1 rawName
            let price := ensureUSD (jsTrimL (stripTagsAux rawPrice.length rawPrice))
            if name ≠ [] && price ≠ [] then
              some { name := String.mk name, price := String.mk price, planId := fid }
            else none

/-- The tail of strategy-2 pattern A after the lazy content:
`</div>` then whitespace, `</label>`, whitespace, `</div>`; returns the
consumed length. -/
def matchCloserChain (cs : List Char) : Option Nat :=
  if ("</div>".data).isPrefixOf cs then
    let r1 := cs.drop 6
    let w1 := r1.takeWhile isJsWs
    let r2 := r1.drop w1.length
    if ("</label>".data).isPrefixOf r2 then
      let r3 := r2.drop 8
      let w2 := r3.takeWhile isJsWs
      if ("</div>".data).isPrefixOf (r3.drop w2.length) then
        some (6 + w1.length + 8 + w2.length + 6)
      else none
    else none
  else none

/-- Lazy search for the closer chain with the content bounded at 5000
characters (the `{0,5000}?` quantifier). Returns content length and tail
length. -/
def findLazyCloser : Nat → Nat → List Char → Option (Nat × Nat)
  | 0, _, _ => none
  | fuel + 1, consumed, cs =>
    if consumed > 5000 then none
    else
      match matchCloserChain cs with
      | some tl => some (consumed, tl)
      | none =>
        match cs with
        | [] => none
        | _ :: rest => findLazyCloser fuel (consumed + 1) rest

/-- Strategy-2 pattern A scan: `<div … class="…item-block…" …>` with lazy
content up to the `</div> </label> </div>` chain; yields content and whole
match. -/
def scanItemBlocksAux : Nat → List Char → List (List Char × List Char)
  | 0, _ => []
  | _, [] => []
  | fuel + 1, c :: rest =>
    if ("<div".data).isPrefixOf (c :: rest) then
      let tag := (c :: rest).takeWhile (fun ch => ch ≠ '>')
      if tag.length < (c :: rest).length &&
          classValueHas [("item-block".data)] tag.length tag then
        let after := (c :: rest).drop (tag.length + 1)
        match findLazyCloser (after.length + 1) 0 after with
        | some pr =>
          (after.take pr.1, (c :: rest).take (tag.length + 1 + pr.1 + pr.2)) ::
            scanItemBlocksAux fuel (after.drop (pr.1 + pr.2))
        | none => scanItemBlocksAux fuel rest
      else scanItemBlocksAux fuel rest
    else scanItemBlocksAux fuel rest

/-- Within a label tag chunk: `for="D-<digits>"`, with backtracking. -/
def findForDInTag : Nat → List Char → Option (List Char)
  | 0, _ => none
  | _, [] => none
  | fuel + 1, c :: rest =>
    if ("for=\"D-".data).isPrefixOf (c :: rest) then
      let after := (c :: rest).drop 7
      let ds := after.takeWhile Char.isDigit
      if ds ≠ [] && (after.drop ds.length).head? = some '"' then some ('D' :: '-' :: ds)
      else findForDInTag fuel rest
    else findForDInTag fuel rest

/-- Lazy search for the first `</label>` with content bounded at 5000
characters; returns the content length. -/
def findLazyLabel : Nat → Nat → List Char → Option Nat
  | 0, _, _ => none
  | fuel + 1, consumed, cs =>
    if consumed > 5000 then none
    else if ("</label>".data).isPrefixOf cs then some consumed
    else
      match cs with
      | [] => none
      | _ :: rest => findLazyLabel fuel (consumed + 1) rest

/-- Strategy-2 pattern B scan: `<label … for="(D-<tier>)" …>` with lazy
content up to `</label>`; yields the captured plan id and content. -/
def scanLabelPlansAux : Nat → List Char → List (List Char × List Char)
  | 0, _ => []
  | _, [] => []
  | fuel + 1, c :: rest =>
    if ("<label".data).isPrefixOf (c :: rest) then
      let tag := (c :: rest).takeWhile (fun ch => ch ≠ '>')
      if tag.length < (c :: rest).length then
        match findForDInTag tag.length tag with
        | some pid =>
          let after := (c :: rest).drop (tag.length + 1)
          match findLazyLabel (after.length + 1) 0 after with
          | some clen =>
            (pid, after.take clen) :: scanLabelPlansAux fuel (after.drop (clen + 8))
          | none => scanLabelPlansAux fuel rest
        | none => scanLabelPlansAux fuel rest
      else scanLabelPlansAux fuel rest
    else scanLabelPlansAux fuel rest

/-- The shared body of the strategy-2 loops: bounded at 10 plans, extract an
`h3` name and a bare-currency price from the plan slice, normalize the name
(without whitespace collapse), and push with the captured plan id or a
positional `plan-N` fallback. -/
def processAltMatch (plans : List QuotePlan) (planHtmlRaw planId : List Char) :
    List QuotePlan :=
  if plans.length < 10 then
    match findElemAux ("<h3".data) ("</h3>".data) none planHtmlRaw.length planHtmlRaw with
    | none => plans
    | some m =>
      match findUSDAux planHtmlRaw.length planHtmlRaw with
      | none => plans
      | some w =>
        let name := cleanPlanName2 m.content
        if name ≠ [] && w ≠ [] then
          plans ++ [{ name := String.mk name, price := String.mk w,
                      planId := if planId = [] then
                          String.mk (("plan-".data) ++ (Nat.repr (plans.length + 1)).data)
                        else String.mk planId }]
        else plans
  else plans

/-- `parseQuotePlans` from src/unnamed/part_002: strategy 1 (select-plan
forms, windowed card slices) and, when it yields nothing, strategy 2 (the
two alternative container/label patterns, bounded at 10 plans). In pattern A
the JS `match[2] || match[1] || match[0]` takes the captured content (the
whole match when the content is empty) as the plan slice and
`match[1] || ''` — the same captured content — as the plan id; in pattern B
the plan slice is the content (the captured id when the content is empty)
and the plan id is the captured id. -/
def parseQuotePlans (html : String) : List QuotePlan :=
  let cs := html.data
  let formIds := scanFormIdsAux cs.length cs
  let plans1 := formIds.foldl (fun acc fid =>
    match extractPlanForId cs fid with
    | some p => acc ++ [p]
    | none => acc) []
  if plans1.length = 0 then
    let aMatches := scanItemBlocksAux cs.length cs
    let plansA := aMatches.foldl (fun acc m =>
      processAltMatch acc (jsOrL m.1 m.2) m.1) plans1
    let bMatches := scanLabelPlansAux cs.length cs
    bMatches.foldl (fun acc m =>
      processAltMatch acc (jsOrL m.2 m.1) m.1) plansA
  else plans1

/-- A minimal quote-results card in the shape the parser's strategy 1
expects. -/
def demoPlanHtml : String :=
  "<div class=\"x\"><h3 class=\"a font-weight-bold b\">Plan Uno</h3><p class=\"text-color-light opacity-7 mb-4\">USD 100.00</p><form id=\"D-30\" name=\"select-plan\"><label>x</label></div>"

end MercantilBot

open MercantilBot

/-- C8: the plan-identifier mapping sends `D-<tier>` to `M-<tier>` for every
tier suffix (in particular `"D-50"` to `"M-50"`), it is injective on the tier
suffix, and it is round-trip stable: applying the reverse tier convention to
the image recovers the original `D-<tier>` input. -/
theorem mapPlanId_bijection_on_tier :
    mapPlanIdToPurchaseForm "D-50" = "M-50" ∧
    (∀ t : List Char, replaceLeadingDWithM ('D' :: '-' :: t) = 'M' :: '-' :: t) ∧
    (∀ t₁ t₂ : List Char,
      replaceLeadingDWithM ('D' :: '-' :: t₁) = replaceLeadingDWithM ('D' :: '-' :: t₂) →
        t₁ = t₂) ∧
    (∀ t : List Char,
      replaceLeadingMWithD (replaceLeadingDWithM ('D' :: '-' :: t)) = 'D' :: '-' :: t) := by
  have hD : ∀ t : List Char, replaceLeadingDWithM ('D' :: '-' :: t) = 'M' :: '-' :: t := by
    intro t
    simp [replaceLeadingDWithM]
  refine ⟨by decide, hD, fun t₁ t₂ h => ?_, fun t => ?_⟩
  · rw [hD t₁, hD t₂] at h
    simpa using h
  · rw [hD t]
    simp [replaceLeadingMWithD]

/-- Witness for C8: the theorem applied at the concrete tier suffix `50`,
discharging the injectivity hypothesis there. -/
theorem mapPlanId_bijection_on_tier_witness :
    mapPlanIdToPurchaseForm "D-50" = "M-50" ∧ (['5', '0'] : List Char) = ['5', '0'] :=
  ⟨mapPlanId_bijection_on_tier.1,
    mapPlanId_bijection_on_tier.2.2.1 ['5', '0'] ['5', '0'] (by decide)⟩

/-- C10: the mapping rewrites only a leading `D-`: every string that does not
start with `D-` (e.g. `"M-30"`, `"plan-1"`) is returned unchanged, and the
mapping is idempotent. -/
theorem mapPlanId_only_rewrites_leading_D :
    (∀ s : List Char, s.take 2 ≠ ['D', '-'] → replaceLeadingDWithM s = s) ∧
    (∀ s : List Char, replaceLeadingDWithM (replaceLeadingDWithM s) = replaceLeadingDWithM s) ∧
    mapPlanIdToPurchaseForm "M-30" = "M-30" ∧
    mapPlanIdToPurchaseForm "plan-1" = "plan-1" := by
  have hskip : ∀ (c₁ c₂ : Char) (r : List Char), ¬(c₁ = 'D' ∧ c₂ = '-') →
      replaceLeadingDWithM (c₁ :: c₂ :: r) = c₁ :: c₂ :: r := by
    intro c₁ c₂ r h
    simp [replaceLeadingDWithM, h]
  refine ⟨fun s h => ?_, fun s => ?_, by decide, by decide⟩
  · rcases s with _ | ⟨c₁, s⟩
    · rfl
    rcases s with _ | ⟨c₂, r⟩
    · rfl
    refine hskip c₁ c₂ r ?_
    rintro ⟨rfl, rfl⟩
    exact h rfl
  · rcases s with _ | ⟨c₁, s⟩
    · rfl
    rcases s with _ | ⟨c₂, r⟩
    · rfl
    by_cases h : c₁ = 'D' ∧ c₂ = '-'
    · obtain ⟨rfl, rfl⟩ := h
      have h1 : replaceLeadingDWithM ('D' :: '-' :: r) = 'M' :: '-' :: r := by
        simp [replaceLeadingDWithM]
      rw [h1, hskip 'M' '-' r (by decide)]
    · rw [hskip c₁ c₂ r h, hskip c₁ c₂ r h]

/-- C5: every displayed field whose name contains a `[breakdowns][P]` segment
(zero-based index `P`) is placed by the grouping in passenger group `P + 1`
and in no other group. -/
theorem grouping_breakdown_index_to_passenger_group
    (fields : List PurchaseFormField) (f : PurchaseFormField) (P : Nat)
    (hmem : f ∈ fields) (hdisp : shouldDisplayField f = true)
    (hbd : optIncludes f.name "[breakdowns]" = true)
    (hidx : parseBreakdownIndex f.name = some P) :
    f ∈ (groupFieldsByPassenger fields).groups ("passenger-" ++ Nat.repr (P + 1)) ∧
    ∀ k : String, k ≠ "passenger-" ++ Nat.repr (P + 1) →
      f ∉ (groupFieldsByPassenger fields).groups k := by
  have hroute : routeField f = some ("passenger-" ++ Nat.repr (P + 1)) := by
    simp [routeField, hbd, hidx]
  constructor
  · refine List.mem_filter.mpr ⟨List.mem_filter.mpr ⟨hmem, hdisp⟩, ?_⟩
    simp [hroute]
  · intro k hk hcon
    have h2 := (List.mem_filter.mp hcon).2
    rw [hroute] at h2
    simp at h2
    exact hk h2.symm

/-- Witness for C5: the theorem applied to the spec's concrete field
`root[quotes][0][breakdowns][2][passenger][last_name]`, which lands in
passenger group 3 and neither in group 2 nor in group 0. -/
theorem grouping_breakdown_index_to_passenger_group_witness :
    exBreakdownField ∈ (groupFieldsByPassenger [exBreakdownField]).groups "passenger-3" ∧
    exBreakdownField ∉ (groupFieldsByPassenger [exBreakdownField]).groups "passenger-2" ∧
    exBreakdownField ∉ (groupFieldsByPassenger [exBreakdownField]).groups "passenger-0" := by
  have h := grouping_breakdown_index_to_passenger_group [exBreakdownField] exBreakdownField 2
    (by decide) (by decide) (by decide) (by decide)
  refine ⟨?_, ?_, ?_⟩
  · have := h.1
    simpa using this
  · have := h.2 "passenger-2" (by decide)
    simpa using this
  · have := h.2 "passenger-0" (by decide)
    simpa using this

/-- C4 (failing evaluation): a checkbox field carrying a rider-premium
attribute whose name contains a `[breakdowns][0]` segment is routed by
`groupFieldsByPassenger` to passenger group 1, not to the benefits group —
the `[breakdowns]` branch is tested before the rider-checkbox branch, so the
benefits group stays empty, contradicting the claim (and the code's own
comment "Group rider checkboxes (optional benefits) separately" together
with the Beneficios Opcionales rendering section it feeds). -/
theorem rider_checkbox_routed_to_passenger_group_not_benefits :
    (groupFieldsByPassenger [exRiderCheckbox]).groups "beneficios" = [] ∧
    (groupFieldsByPassenger [exRiderCheckbox]).groups "passenger-1" = [exRiderCheckbox] ∧
    exRiderCheckbox.type = some "checkbox" ∧
    truthyStr exRiderCheckbox.dataPremium = true := by
  refine ⟨?_, ?_, rfl, by decide⟩
  · decide
  · decide

/-- C7 (counterexample): label inference can return a string containing `[`
and `]` — a non-empty placeholder is returned without any bracket
validation. -/
theorem label_inference_brackets_counterexample :
    getFieldLabel exPlaceholderField = "Monto [USD]" ∧
    jsIncludes (getFieldLabel exPlaceholderField) "[" = true ∧
    jsIncludes (getFieldLabel exPlaceholderField) "]" = true := by
  refine ⟨rfl, by decide, by decide⟩

/-- C7 (amended): for every field named `a[b][first_name]` with no DOM label
and no placeholder, label inference returns the dictionary-mapped display
value `"Nombre"` for the `first_name` token, not the raw token or the raw
name; the bracket-freedom part of the claim fails (see the counterexample). -/
theorem label_inference_first_name_dictionary (f : PurchaseFormField)
    (h1 : f.label = none) (h2 : f.placeholder = none)
    (h3 : f.name = some "a[b][first_name]") :
    getFieldLabel f = "Nombre" := by
  unfold getFieldLabel
  rw [h1, h2, h3]
  rfl

/-- Witness for the amended C7 theorem at the concrete example field. -/
theorem label_inference_first_name_dictionary_witness :
    getFieldLabel exFirstNameField = "Nombre" :=
  label_inference_first_name_dictionary exFirstNameField rfl rfl rfl

/-- Helper: a deleted key is absent from the form-values map. -/
theorem lookupVal_eraseVal (m : List (String × String)) (k : String) :
    lookupVal (eraseVal m k) k = none := by
  induction m with
  | nil => rfl
  | cons p t ih =>
    by_cases h : p.1 = k
    · have e : eraseVal (p :: t) k = eraseVal t k := by
        simp [eraseVal, List.filter_cons, h]
      rw [e]
      exact ih
    · have e : eraseVal (p :: t) k = p :: eraseVal t k := by
        simp [eraseVal, List.filter_cons, h]
      rw [e]
      have e2 : lookupVal (p :: eraseVal t k) k = lookupVal (eraseVal t k) k := by
        simp [lookupVal, List.find?_cons_of_neg, h]
      rw [e2]
      exact ih

/-- Helper: the two-digit padded numeral of a cent remainder has length 2. -/
theorem pad2_length : ∀ m : Nat, m < 100 → (pad2 m).length = 2 := by decide

/-- Helper: each fold step of the premium engine adds that field's premium
contribution. -/
theorem riderStep_eq_add_delta (vals : List (String × String)) (total : ℚ)
    (f : PurchaseFormField) : riderStep vals total f = total + riderDelta f vals := by
  unfold riderStep riderDelta
  by_cases h1 : isRiderPremiumField f
  · by_cases h2 : riderIsChecked f vals
    · rcases hp : parseDecimal (f.dataPremium.getD "") with _ | r
      · simp [h1, h2, hp]
      · by_cases h3 : (0 : ℚ) < r
        · simp [h1, h2, hp, h3]
        · simp [h1, h2, hp, h3]
    · simp [h1, h2]
  · simp [h1]

/-- Helper: the recomputed total is the base plus the sum of contributions. -/
theorem calculateTotalPremium_eq_base_add_sum (vals : List (String × String)) :
    ∀ (fields : List PurchaseFormField) (base : ℚ),
      calculateTotalPremium base fields vals =
        base + (fields.map (fun f => riderDelta f vals)).sum := by
  intro fields
  induction fields with
  | nil =>
    intro base
    simp [calculateTotalPremium]
  | cons f fs ih =>
    intro base
    have expand : calculateTotalPremium base (f :: fs) vals =
        calculateTotalPremium (riderStep vals base f) fs vals := rfl
    rw [expand, ih, riderStep_eq_add_delta]
    simp [List.map_cons, List.sum_cons]
    ring

/-- Helper: fields that are not selected rider checkboxes contribute 0, so the
sum of contributions equals the sum over exactly the selected rider
checkboxes. -/
theorem riderDelta_sum_eq_filter_sum (vals : List (String × String)) :
    ∀ fields : List PurchaseFormField,
      ((fields.map (fun f => riderDelta f vals)).sum : ℚ) =
        ((fields.filter (fun f => isRiderPremiumField f && riderIsChecked f vals)).map
          (fun f => riderDelta f vals)).sum := by
  intro fields
  induction fields with
  | nil => rfl
  | cons f fs ih =>
    by_cases h : (isRiderPremiumField f && riderIsChecked f vals) = true
    · simp [List.filter_cons, h, ih]
    · have h0 : riderDelta f vals = 0 := by
        simp [riderDelta, h]
      simp [List.filter_cons, h, h0, ih]

/-- Helper: the value `parseFloat` assigns to `"5.50"`. -/
theorem parseDecimal_5_50 : parseDecimal "5.50" = some (11 / 2) := by
  have h : parseDecParts "5.50" = some (false, ['5'], ['5', '0']) := by decide
  have d1 : digitsToNat ['5'] = 5 := by decide
  have d2 : digitsToNat ['5', '0'] = 50 := by decide
  simp [parseDecimal, h, ratOfDigits, d1, d2]
  norm_num

/-- Helper: the value `parseFloat` assigns to `"10.00"`. -/
theorem parseDecimal_10 : parseDecimal "10.00" = some 10 := by
  have h : parseDecParts "10.00" = some (false, ['1', '0'], ['0', '0']) := by decide
  have d1 : digitsToNat ['1', '0'] = 10 := by decide
  have d2 : digitsToNat ['0', '0'] = 0 := by decide
  simp [parseDecimal, h, ratOfDigits, d1, d2]

/-- Helper: premium contributions in the two concrete selection states. -/
theorem riderDelta_concrete :
    riderDelta premiumField valsBothSelected = 0 ∧
    riderDelta riderA valsBothSelected = 11 / 2 ∧
    riderDelta riderB valsBothSelected = 10 ∧
    riderDelta premiumField valsOneSelected = 0 ∧
    riderDelta riderA valsOneSelected = 11 / 2 ∧
    riderDelta riderB valsOneSelected = 0 := by
  refine ⟨?_, ?_, ?_, ?_, ?_, ?_⟩
  · have hc : (isRiderPremiumField premiumField && riderIsChecked premiumField valsBothSelected)
        = false := by decide
    simp [riderDelta, hc]
  · have hc : (isRiderPremiumField riderA && riderIsChecked riderA valsBothSelected)
        = true := by decide
    have hd : riderA.dataPremium.getD "" = "5.50" := rfl
    simp [riderDelta, hc, hd, parseDecimal_5_50]
  · have hc : (isRiderPremiumField riderB && riderIsChecked riderB valsBothSelected)
        = true := by decide
    have hd : riderB.dataPremium.getD "" = "10.00" := rfl
    simp [riderDelta, hc, hd, parseDecimal_10]
  · have hc : (isRiderPremiumField premiumField && riderIsChecked premiumField valsOneSelected)
        = false := by decide
    simp [riderDelta, hc]
  · have hc : (isRiderPremiumField riderA && riderIsChecked riderA valsOneSelected)
        = true := by decide
    have hd : riderA.dataPremium.getD "" = "5.50" := rfl
    simp [riderDelta, hc, hd, parseDecimal_5_50]
  · have hc : (isRiderPremiumField riderB && riderIsChecked riderB valsOneSelected)
        = false := by decide
    simp [riderDelta, hc]

/-- Helper: the concrete totals 115.50 and 105.50. -/
theorem calculateTotalPremium_concrete :
    calculateTotalPremium 100 demoPurchaseFields valsBothSelected = 231 / 2 ∧
    calculateTotalPremium 100 demoPurchaseFields valsOneSelected = 211 / 2 := by
  obtain ⟨h0, hA, hB, h0o, hAo, hBo⟩ := riderDelta_concrete
  constructor
  · rw [calculateTotalPremium_eq_base_add_sum]
    simp [demoPurchaseFields, h0, hA, hB]
    norm_num
  · rw [calculateTotalPremium_eq_base_add_sum]
    simp [demoPurchaseFields, h0o, hAo, hBo]
    norm_num

/-- Helper: `toFixed(2)` renders 105.50 with two decimals. -/
theorem toFixed2_10550 : toFixed2 (211 / 2 : ℚ) = "105.50" := by
  have hneg : ¬((211 : ℚ) / 2 < 0) := by norm_num
  have hfl : ⌊(211 : ℚ) / 2 * 100 + 1 / 2⌋ = 10550 := by norm_num
  rw [toFixed2, if_neg hneg, hfl]
  decide

/-- C2: the recomputed total premium is `basePremium` plus the sum of the
premium contributions over exactly the rider checkboxes whose tracked value
equals their own value attribute; on the concrete scenario with base 100.00
and rider premiums 5.50 and 10.00, selecting both gives 115.50 and
deselecting one gives 105.50; the string written back into the premium
field's tracked value on a rider toggle is the fixed prefix `"US$ "`
followed by the total rendered with exactly two decimal places. -/
theorem premium_engine_total_and_format :
    (∀ (base : ℚ) (fields : List PurchaseFormField) (vals : List (String × String)),
      calculateTotalPremium base fields vals =
        base + ((fields.filter (fun f => isRiderPremiumField f && riderIsChecked f vals)).map
          (fun f => riderDelta f vals)).sum) ∧
    calculateTotalPremium 100 demoPurchaseFields valsBothSelected = 231 / 2 ∧
    calculateTotalPremium 100 demoPurchaseFields valsOneSelected = 211 / 2 ∧
    lookupVal
      (handleInputChange demoPurchaseFields 100 valsBothSelected
        "website_quotation[quotes][0][breakdowns][0][riders][1]" ""
        (some "website_quotation[quotes][0][breakdowns][0][riders][1]"))
      "website_quotation[quotes][0][premium]" = some "US$ 105.50" ∧
    (∀ q : ℚ, ∃ n m : Nat, m < 100 ∧ (pad2 m).length = 2 ∧
      (toFixed2 q = Nat.repr n ++ "." ++ pad2 m ∨
       toFixed2 q = "-" ++ (Nat.repr n ++ "." ++ pad2 m))) := by
  refine ⟨?_, calculateTotalPremium_concrete.1, calculateTotalPremium_concrete.2, ?_, ?_⟩
  · intro base fields vals
    rw [calculateTotalPremium_eq_base_add_sum, riderDelta_sum_eq_filter_sum]
  · have h1 : handleInputChange demoPurchaseFields 100 valsBothSelected
        "website_quotation[quotes][0][breakdowns][0][riders][1]" ""
        (some "website_quotation[quotes][0][breakdowns][0][riders][1]") =
        insertVal valsOneSelected "website_quotation[quotes][0][premium]"
          ("US$ " ++ toFixed2 (calculateTotalPremium 100 demoPurchaseFields valsOneSelected)) :=
      rfl
    rw [h1, calculateTotalPremium_concrete.2, toFixed2_10550]
    decide
  · intro q
    by_cases hq : q < 0
    · refine ⟨Int.toNat ⌊-q * 100 + 1 / 2⌋ / 100, Int.toNat ⌊-q * 100 + 1 / 2⌋ % 100,
        Nat.mod_lt _ (by norm_num), pad2_length _ (Nat.mod_lt _ (by norm_num)), Or.inr ?_⟩
      simp [toFixed2, fmtCents, hq]
    · refine ⟨Int.toNat ⌊q * 100 + 1 / 2⌋ / 100, Int.toNat ⌊q * 100 + 1 / 2⌋ % 100,
        Nat.mod_lt _ (by norm_num), pad2_length _ (Nat.mod_lt _ (by norm_num)), Or.inl ?_⟩
      simp [toFixed2, fmtCents, hq]

/-- Witness for C10: the theorem applied at the concrete inputs `"M-30"` and
`"plan-1"`, discharging the no-leading-`D-` hypothesis there. -/
theorem mapPlanId_only_rewrites_leading_D_witness :
    replaceLeadingDWithM "M-30".data = "M-30".data ∧
    replaceLeadingDWithM (replaceLeadingDWithM "plan-1".data) =
      replaceLeadingDWithM "plan-1".data :=
  ⟨mapPlanId_only_rewrites_leading_D.1 "M-30".data (by decide),
   mapPlanId_only_rewrites_leading_D.2.1 "plan-1".data⟩

/-- C3 (counterexample): after toggling the rider checkbox off, its key is
indeed absent from the tracked form values, but the built submission payload
still contains the key with an explicit empty-string value, and that payload
is identical to the payload built from a state that explicitly maps the
rider's key to the empty string — the two states are not distinguishable in
the built payload. -/
theorem unchecked_rider_in_payload_counterexample :
    lookupVal valsAfterRiderOff "website_quotation[quotes][0][breakdowns][0][riders][2]"
      = none ∧
    buildFormData [exRiderForSubmit] valsAfterRiderOff =
      [("website_quotation[quotes][0][breakdowns][0][riders][2]", "")] ∧
    buildFormData [exRiderForSubmit] valsAfterRiderOff =
      buildFormData [exRiderForSubmit]
        [("website_quotation[quotes][0][breakdowns][0][riders][2]", "")] :=
  ⟨by decide, by decide, by decide⟩

/-- C3 (amended): toggling a rider checkbox off removes its key from the
tracked form-values map (it is not set to an empty string there); but the
submission payload built by `handleSubmit` appends every named field, so a
rider with no truthy tracked value appears in the payload with an explicit
empty-string value rather than being omitted. -/
theorem rider_toggle_off_removed_from_values_but_payload_keeps_key
    (vals : List (String × String)) :
    lookupVal
      (handleInputChange [exRiderForSubmit] 0 vals
        "website_quotation_quotes_0_breakdowns_0_riders_2" ""
        (some "website_quotation[quotes][0][breakdowns][0][riders][2]"))
      "website_quotation[quotes][0][breakdowns][0][riders][2]" = none ∧
    (truthyStr (lookupVal vals "website_quotation[quotes][0][breakdowns][0][riders][2]")
        = false →
      buildFormData [exRiderForSubmit] vals =
        [("website_quotation[quotes][0][breakdowns][0][riders][2]", "")]) := by
  constructor
  · have h1 : handleInputChange [exRiderForSubmit] 0 vals
        "website_quotation_quotes_0_breakdowns_0_riders_2" ""
        (some "website_quotation[quotes][0][breakdowns][0][riders][2]") =
        eraseVal vals "website_quotation[quotes][0][breakdowns][0][riders][2]" := rfl
    rw [h1]
    exact lookupVal_eraseVal vals _
  · intro h
    have hname : exRiderForSubmit.name =
        some "website_quotation[quotes][0][breakdowns][0][riders][2]" := rfl
    have htype : exRiderForSubmit.type = some "checkbox" := rfl
    simp [buildFormData, hname, htype, h]

/-- Witness for the amended C3 theorem: applied with the checked-state map
(for the removal part) and with the empty map (for the payload part),
discharging the untracked-value hypothesis there. -/
theorem rider_toggle_off_removed_witness :
    lookupVal
      (handleInputChange [exRiderForSubmit] 0
        [("website_quotation[quotes][0][breakdowns][0][riders][2]", "103")]
        "website_quotation_quotes_0_breakdowns_0_riders_2" ""
        (some "website_quotation[quotes][0][breakdowns][0][riders][2]"))
      "website_quotation[quotes][0][breakdowns][0][riders][2]" = none ∧
    buildFormData [exRiderForSubmit] [] =
      [("website_quotation[quotes][0][breakdowns][0][riders][2]", "")] :=
  ⟨(rider_toggle_off_removed_from_values_but_payload_keeps_key
      [("website_quotation[quotes][0][breakdowns][0][riders][2]", "103")]).1,
   (rider_toggle_off_removed_from_values_but_payload_keeps_key []).2 (by decide)⟩

/-- C1 (failing evaluation): for the query `"Atlantis"`, which matches no
catalog entry exactly or by substring in either direction, origin resolution
silently returns the hardcoded default id `"160"` (an id not even present in
the catalog) and destination resolution silently returns the hardcoded
default id `"3"` (likewise absent), instead of failing with a
ResolutionError as the claim requires. -/
theorem resolution_silent_default_on_no_match :
    getOriginId demoCatalog "Atlantis" = "160" ∧
    demoCatalog.origins.all (fun o =>
      !(o.text = "Atlantis" || jsIncludes o.text "Atlantis" ||
        jsIncludes "Atlantis" o.text)) = true ∧
    demoCatalog.origins.all (fun o => o.value ≠ "160") = true ∧
    getDestinationId demoCatalog "Atlantis" "Viajes Por Día" = "3" ∧
    ((lookupDest demoCatalog.destinations "Viajes Por Día").getD []).all
      (fun d =>
        !(d.text = "Atlantis" || jsIncludes d.text "Atlantis" ||
          jsIncludes "Atlantis" d.text) && d.value ≠ "3") = true := by
  refine ⟨by decide, by decide, by decide, by decide, by decide⟩

/-- C9 (amended): quote generation performs no input validation before remote
interaction — for every quote config (malformed ones included) and every
page environment, the very first action of `generateQuote` is the remote
navigation to the quote page. -/
theorem quote_generation_navigates_first (config : QuoteConfig) (env : PageEnv) :
    (generateQuoteTrace config env).1.head? = some (RemoteAction.navigate QUOTE_URL) := by
  unfold generateQuoteTrace
  dsimp only
  split
  · split
    · split
      · rfl
      · rfl
    · rfl
  · rfl

/-- C9 (counterexample): on a config whose ages array length (1) differs from
its passenger count (2), the code is not rejected before remote interaction:
the trace is non-empty, begins with remote navigation, and the run even
proceeds all the way to form submission with no MalformedInputError of any
kind. -/
theorem malformed_config_still_navigates :
    malformedConfig.ages.length ≠ malformedConfig.passengers ∧
    (generateQuoteTrace malformedConfig demoPageEnv).1 ≠ [] ∧
    (generateQuoteTrace malformedConfig demoPageEnv).1.head? =
      some (RemoteAction.navigate QUOTE_URL) ∧
    (generateQuoteTrace malformedConfig demoPageEnv).2 = QuoteOutcome.submitted := by
  refine ⟨by decide, by decide, by decide, by decide⟩

/-- C6: the quote plan parser is a pure total function — it returns normally
with a (possibly empty) list on every input (totality is certified by the
definitions being accepted as terminating, with no partiality), calling it
twice on identical input yields an identical list, inputs with nothing
extractable yield `[]` rather than an error, and a well-formed card is
actually extracted (the embedding is not vacuous). -/
theorem parseQuotePlans_pure_total :
    (∀ html : String, parseQuotePlans html = parseQuotePlans html) ∧
    parseQuotePlans "" = [] ∧
    parseQuotePlans "<p>no plans here</p>" = [] ∧
    parseQuotePlans demoPlanHtml =
      [{ name := "Plan Uno", price := "USD 100.00", planId := "D-30" }] := by
  refine ⟨fun h => rfl, by decide, by decide, ?_⟩
  set_option maxRecDepth 10000 in decide
